import Mathlib

/-!
Verification of the acquisition-and-reconciliation pipeline of the
visa-wait-time repository (src/data.py and src/data_perm.py) against its
natural-language specification.

Python strings are modeled as `List Char` (`PyStr`); `NaN`/missing cells are
modeled as `Option`; Python exceptions are modeled as `Except`.  Each
definition below is a shallow embedding of a named piece of the source and
carries a comment pointing at the line(s) it embeds.
-/

set_option maxRecDepth 4000

/-- A Python `str`, modeled as its list of characters. -/
abbrev PyStr := List Char

namespace VisaWait

/-! ### String primitives shared by the embeddings

These model the Python `str` operations used in `src/data.py` and
`src/data_perm.py`: substring test (`in` / `Series.str.contains` with literal
alternation), `str.split(sep)[0]`, `str.strip()`, and numeric conversion. -/

/-- `startsWith t pat` : `t` begins with `pat` (Python `str.startswith`,
used here only as the building block of the substring test). -/
def startsWith : PyStr → PyStr → Bool
  | _, [] => true
  | [], _ :: _ => false
  | c :: t, p :: ps => c = p && startsWith t ps

/-- `containsSub t pat` : `pat` occurs as a contiguous substring of `t`
(Python `pat in t`, and `Series.str.contains` with a literal pattern). -/
def containsSub : PyStr → PyStr → Bool
  | [], pat => startsWith [] pat
  | c :: rest, pat => startsWith (c :: rest) pat || containsSub rest pat

/-- Everything before the first occurrence of `pat` (Python
`s.split(pat)[0]` for a non-empty separator `pat`). -/
def takeUntilPat (pat : PyStr) : PyStr → PyStr
  | [] => []
  | c :: rest => if startsWith (c :: rest) pat then [] else c :: takeUntilPat pat rest

/-- Python `str.strip()`: remove leading and trailing whitespace.  The cells
processed here are ASCII, so `Char.isWhitespace` coincides with Python
`str.isspace` on every character that can occur. -/
def stripChars (s : PyStr) : PyStr :=
  ((s.dropWhile Char.isWhitespace).reverse.dropWhile Char.isWhitespace).reverse

/-- Decimal value of a digit string (helper for the numeric conversions). -/
def natOfDigits (s : PyStr) : Nat :=
  s.foldl (fun a c => 10 * a + (c.toNat - 48)) 0

/-- Python `float(s)` as used by `astype("float")` on the old wait-time
table, where every cell that reaches the conversion is an unsigned integer
literal; any other remainder makes `astype` raise, modeled as `none`. -/
def parseFloatNat (s : PyStr) : Option Nat :=
  if s = [] then none
  else if s.all Char.isDigit then some (natOfDigits s) else none

/-! #### Lemmas about the string primitives -/

theorem startsWith_mem {t pat : PyStr} (h : startsWith t pat = true) :
    ∀ c ∈ pat, c ∈ t := by
  induction t generalizing pat with
  | nil =>
    cases pat with
    | nil => intro c hc; cases hc
    | cons p ps => simp [startsWith] at h
  | cons a t ih =>
    cases pat with
    | nil => intro c hc; cases hc
    | cons p ps =>
      simp only [startsWith, Bool.and_eq_true, decide_eq_true_eq] at h
      intro c hc
      rcases List.mem_cons.mp hc with rfl | hc
      · exact h.1 ▸ List.mem_cons_self _ _
      · exact List.mem_cons_of_mem _ (ih h.2 c hc)

theorem containsSub_mem {t pat : PyStr} (h : containsSub t pat = true) :
    ∀ c ∈ pat, c ∈ t := by
  induction t with
  | nil =>
    cases pat with
    | nil => intro c hc; cases hc
    | cons p ps => simp [containsSub, startsWith] at h
  | cons a rest ih =>
    simp only [containsSub, Bool.or_eq_true] at h
    rcases h with h | h
    · exact startsWith_mem h
    · intro c hc; exact List.mem_cons_of_mem _ (ih h c hc)

/-- If some character of `pat` does not occur in `t`, then `pat` is not a
substring of `t`. -/
theorem containsSub_eq_false {t pat : PyStr} {c : Char}
    (hc : c ∈ pat) (hn : c ∉ t) : containsSub t pat = false := by
  rcases h : containsSub t pat with _ | _
  · rfl
  · exact absurd (containsSub_mem h c hc) hn

theorem startsWith_cons_false {c p : Char} {t ps : PyStr} (h : c ≠ p) :
    startsWith (c :: t) (p :: ps) = false := by
  simp [startsWith, h]

/-- `takeUntilPat` passes over a block none of whose characters can begin the
separator. -/
theorem takeUntilPat_append {p : Char} {ps s t : PyStr}
    (h : ∀ c ∈ s, c ≠ p) :
    takeUntilPat (p :: ps) (s ++ t) = s ++ takeUntilPat (p :: ps) t := by
  induction s with
  | nil => rfl
  | cons a s ih =>
    have ha : a ≠ p := h a (List.mem_cons_self _ _)
    simp only [List.cons_append, takeUntilPat, startsWith_cons_false ha]
    simp only [if_neg Bool.false_ne_true, List.append_eq]
    rw [ih (fun c hc => h c (List.mem_cons_of_mem _ hc))]

theorem digit_ne {c d : Char} (h : c.isDigit = true) (hd : d.isDigit = false) :
    c ≠ d := by
  intro rfl_eq
  rw [rfl_eq] at h
  rw [h] at hd
  cases hd

theorem digit_not_ws {c : Char} (h : c.isDigit = true) :
    c.isWhitespace = false := by
  rcases hw : c.isWhitespace with _ | _
  · rfl
  · exfalso
    simp only [Char.isWhitespace, Bool.or_eq_true, decide_eq_true_eq] at hw
    rcases hw with ((rfl | rfl) | rfl) | rfl <;> exact absurd h (by decide)

/-- Stripping a digit string with one trailing space returns the digits. -/
theorem stripChars_digits_space {s : PyStr} (h1 : s ≠ [])
    (h2 : ∀ c ∈ s, c.isDigit = true) :
    stripChars (s ++ [' ']) = s := by
  unfold stripChars
  have hdrop1 : (s ++ [' ']).dropWhile Char.isWhitespace = s ++ [' '] := by
    cases s with
    | nil => exact absurd rfl h1
    | cons a s =>
      have : a.isWhitespace = false := digit_not_ws (h2 a (List.mem_cons_self _ _))
      simp [List.dropWhile, this]
  rw [hdrop1]
  rw [List.reverse_append]
  have hrev : ([' '] : PyStr).reverse = [' '] := rfl
  rw [hrev]
  have hdrop2 : (' ' :: s.reverse).dropWhile Char.isWhitespace = s.reverse.dropWhile Char.isWhitespace := by
    simp [List.dropWhile]
  rw [List.singleton_append, hdrop2]
  have hdrop3 : s.reverse.dropWhile Char.isWhitespace = s.reverse := by
    cases hs : s.reverse with
    | nil => rfl
    | cons b bs =>
      have hb : b ∈ s := by
        have : b ∈ s.reverse := hs ▸ List.mem_cons_self _ _
        exact List.mem_reverse.mp this
      have : b.isWhitespace = false := digit_not_ws (h2 b hb)
      simp [List.dropWhile, this]
  rw [hdrop3, List.reverse_reverse]

theorem parseFloatNat_digits {s : PyStr} (h1 : s ≠ [])
    (h2 : ∀ c ∈ s, c.isDigit = true) :
    parseFloatNat s = some (natOfDigits s) := by
  unfold parseFloatNat
  rw [if_neg h1, if_pos (List.all_eq_true.mpr h2)]

/-! ### `VisaWaitTimeData.read_visa_wait_times_old` — per-cell normalization

Embeds the loop body of `src/data.py` lines 105-113, applied to one cell of a
wait-time column.  `none` models `NaN`; the `Except.error` outcome models the
`ValueError` that `astype("float")` raises on a non-numeric remainder. -/

/-- One cell of the old-format normalizer (`src/data.py` lines 106-113). -/
def read_visa_wait_times_old_cell (cell : Option PyStr) : Except PyStr (Option Nat) :=
  -- line 106: `fillna("")`
  let s1 : PyStr := cell.getD []
  -- line 107: cells containing "Same Day" are replaced by "0 Day"
  let s2 : PyStr := if containsSub s1 ("Same Day".data) then "0 Day".data else s1
  -- lines 108-109: cells containing a closure phrase are replaced by NaN
  let s3 : Option PyStr :=
    if containsSub s2 ("Closed".data) || containsSub s2 ("Non-Visa Processing Post".data)
        || containsSub s2 ("Emergency Appointments Only".data)
      then none else some s2
  -- line 111: `str.split("Day", expand=True)[0].str.strip()` (NaN propagates)
  let s4 : Option PyStr := s3.map (fun s => stripChars (takeUntilPat ("Day".data) s))
  -- line 112: empty string becomes NaN
  let s5 : Option PyStr := s4.bind (fun s => if s = [] then none else some s)
  -- line 113: `astype("float")`
  match s5 with
  | none => .ok none
  | some t =>
    match parseFloatNat t with
    | some n => .ok (some n)
    | none => .error t

/-! #### Evaluation of the old-format cell normalizer on day-count cells -/

theorem old_cell_eval (ds tail : PyStr) (h1 : ds ≠ [])
    (h2 : ∀ c ∈ ds, c.isDigit = true)
    (hS : 'S' ∉ tail) (hC : 'C' ∉ tail) (hN : 'N' ∉ tail) (hE : 'E' ∉ tail)
    (htail : takeUntilPat ("Day".data) tail = []) :
    read_visa_wait_times_old_cell (some (ds ++ ' ' :: tail)) =
      .ok (some (natOfDigits ds)) := by
  have hmem : ∀ c : Char, c.isDigit = false → c ≠ ' ' → c ∉ tail → c ∉ ds ++ ' ' :: tail := by
    intro c hcd hcs hct hmem
    rcases List.mem_append.mp hmem with h | h
    · exact absurd (h2 c h) (by rw [hcd]; exact Bool.false_ne_true)
    · rcases List.mem_cons.mp h with h' | h'
      · exact hcs h'
      · exact hct h'
  have hSame : containsSub (ds ++ ' ' :: tail) ("Same Day".data) = false :=
    containsSub_eq_false (c := 'S') (by decide) (hmem 'S' (by decide) (by decide) hS)
  have hClosed : containsSub (ds ++ ' ' :: tail) ("Closed".data) = false :=
    containsSub_eq_false (c := 'C') (by decide) (hmem 'C' (by decide) (by decide) hC)
  have hNon : containsSub (ds ++ ' ' :: tail) ("Non-Visa Processing Post".data) = false :=
    containsSub_eq_false (c := 'N') (by decide) (hmem 'N' (by decide) (by decide) hN)
  have hEmer : containsSub (ds ++ ' ' :: tail) ("Emergency Appointments Only".data) = false :=
    containsSub_eq_false (c := 'E') (by decide) (hmem 'E' (by decide) (by decide) hE)
  have hsplit : takeUntilPat ("Day".data) (ds ++ ' ' :: tail) = ds ++ [' '] := by
    rw [List.append_cons ds ' ' tail]
    have hpat : ("Day".data : PyStr) = 'D' :: "ay".data := rfl
    rw [hpat, takeUntilPat_append (t := tail)]
    · rw [← hpat, htail, List.append_nil]
    · intro c hc
      rcases List.mem_append.mp hc with h | h
      · exact digit_ne (h2 c h) (by decide)
      · rcases List.mem_singleton.mp h with rfl
        decide
  have hstrip : stripChars (ds ++ [' ']) = ds := stripChars_digits_space h1 h2
  unfold read_visa_wait_times_old_cell
  rw [Option.getD_some]
  simp only [hSame, Bool.false_eq_true, if_false, hClosed, hNon, hEmer,
    Bool.or_self, Bool.false_or, Option.map_some', Option.some_bind, hsplit,
    hstrip, if_neg h1, parseFloatNat_digits h1 h2]

/-- C7: in the old-format normalizer (`read_visa_wait_times_old`), every raw
cell of the form `"<N> Day"` or `"<N> Days"` (digit string `ds` followed by
the day suffix) yields the numeric value of `ds`, and `"Same Day"` yields
exactly `0`. -/
theorem read_visa_wait_times_old_day_values (ds : PyStr) (h1 : ds ≠ [])
    (h2 : ∀ c ∈ ds, c.isDigit = true) :
    read_visa_wait_times_old_cell (some (ds ++ " Day".data)) =
        .ok (some (natOfDigits ds)) ∧
    read_visa_wait_times_old_cell (some (ds ++ " Days".data)) =
        .ok (some (natOfDigits ds)) ∧
    read_visa_wait_times_old_cell (some ("Same Day".data)) = .ok (some 0) := by
  have e1 : (" Day".data : PyStr) = ' ' :: "Day".data := rfl
  have e2 : (" Days".data : PyStr) = ' ' :: "Days".data := rfl
  refine ⟨?_, ?_, rfl⟩
  · rw [e1]
    exact old_cell_eval ds ("Day".data) h1 h2 (by decide) (by decide) (by decide)
      (by decide) (by decide)
  · rw [e2]
    exact old_cell_eval ds ("Days".data) h1 h2 (by decide) (by decide) (by decide)
      (by decide) (by decide)

/-- Witness for C7 at the concrete cells `"5 Day"`, `"5 Days"`, `"Same Day"`. -/
theorem read_visa_wait_times_old_day_values_witness :
    (("5".data : PyStr) ≠ [] ∧ ∀ c ∈ ("5".data : PyStr), c.isDigit = true) ∧
    (read_visa_wait_times_old_cell (some ("5 Day".data)) = .ok (some 5) ∧
     read_visa_wait_times_old_cell (some ("5 Days".data)) = .ok (some 5) ∧
     read_visa_wait_times_old_cell (some ("Same Day".data)) = .ok (some 0)) :=
  ⟨⟨by decide, by decide⟩,
   read_visa_wait_times_old_day_values ("5".data) (by decide) (by decide)⟩

/-- C8 counterexample: the raw cell `"Closed Same Day"` contains the closure
phrase `"Closed"`, yet the old-format normalizer yields the numeric value `0`
(the `"Same Day"` rewrite on line 107 of src/data.py runs before the closure
check on lines 108-109), so a closure-phrase cell can produce a number. -/
theorem read_visa_wait_times_old_closed_same_day :
    containsSub ("Closed Same Day".data) ("Closed".data) = true ∧
    read_visa_wait_times_old_cell (some ("Closed Same Day".data)) =
      .ok (some 0) := by
  exact ⟨by decide, rfl⟩

/-- C8 (amended): every raw cell that contains a closure/appointment-only
phrase and does not contain `"Same Day"` yields the null marker, never a
number. -/
theorem read_visa_wait_times_old_closure_null (s : PyStr)
    (hnot : containsSub s ("Same Day".data) = false)
    (hcl : containsSub s ("Closed".data) = true ∨
      containsSub s ("Non-Visa Processing Post".data) = true ∨
      containsSub s ("Emergency Appointments Only".data) = true) :
    read_visa_wait_times_old_cell (some s) = .ok none := by
  unfold read_visa_wait_times_old_cell
  rw [Option.getD_some]
  have hcond : (containsSub s ("Closed".data) ||
      containsSub s ("Non-Visa Processing Post".data) ||
      containsSub s ("Emergency Appointments Only".data)) = true := by
    rcases hcl with h | h | h <;> simp [h]
  simp only [hnot, Bool.false_eq_true, if_false, hcond, if_true,
    Option.map_none', Option.none_bind]

/-- Witness for the amended C8 at the concrete cell `"Closed"`. -/
theorem read_visa_wait_times_old_closure_null_witness :
    (containsSub ("Closed".data) ("Same Day".data) = false ∧
      containsSub ("Closed".data) ("Closed".data) = true) ∧
    read_visa_wait_times_old_cell (some ("Closed".data)) = .ok none :=
  ⟨⟨by decide, by decide⟩,
   read_visa_wait_times_old_closure_null ("Closed".data) (by decide)
     (Or.inl (by decide))⟩

/-! ### Date formatting (`strftime`) helpers

`strftime("%Y-%m-%d")` / `strftime("%Y-%m")` zero-pad their fields.  Every
year produced by the pipeline lies between 1969 and 2068, so four fixed
decimal positions model `%Y` exactly, and two model `%m`/`%d`. -/

/-- The decimal digit character of `k % 10`. -/
def digitChar (k : Nat) : Char :=
  match k % 10 with
  | 0 => '0' | 1 => '1' | 2 => '2' | 3 => '3' | 4 => '4'
  | 5 => '5' | 6 => '6' | 7 => '7' | 8 => '8' | _ => '9'

/-- `%02d` for the two-digit fields (`%m`, `%d`) of the pipeline. -/
def pad2 (n : Nat) : PyStr := [digitChar (n / 10), digitChar n]

/-- `%04d` for the `%Y` field (all years produced here are four digits). -/
def pad4 (n : Nat) : PyStr :=
  [digitChar (n / 1000), digitChar (n / 100), digitChar (n / 10), digitChar n]

/-- `strftime("%Y-%m-%d")`. -/
def formatISODate (y m d : Nat) : PyStr :=
  pad4 y ++ '-' :: (pad2 m ++ '-' :: pad2 d)

theorem digitChar_isDigit (k : Nat) : (digitChar k).isDigit = true := by
  unfold digitChar
  split <;> decide

theorem digitChar_toLower_not_alpha (k : Nat) :
    (digitChar k).toLower.isAlpha = false := by
  unfold digitChar
  split <;> decide

/-! ### Python objects passed as `asof_date`

`src/data.py` line 53 and `src/data_perm.py` line 21 both read
`str(asof_date.date) if isinstance(asof_date, datetime) else asof_date`.
The possible arguments are `datetime` instances, `datetime.date` instances
(which are *not* `datetime` instances — `main()` passes one), and strings. -/

inductive PyObj where
  /-- a `datetime.datetime` instance holding this calendar date -/
  | pyDatetime (y m d : Nat)
  /-- a `datetime.date` instance (not a `datetime` instance) -/
  | pyDate (y m d : Nat)
  /-- a `str` -/
  | pyStrV (s : PyStr)
deriving DecidableEq

/-- `str(dt.date)`: the `date` attribute is accessed without being called, so
this is `str()` of a bound-method object,
`"<built-in method date of datetime.datetime object at 0x...>"`.  The memory
address is elided since it is not a function of the date; what matters below
is only that the text starts with `'<'` and so is never an ISO date. -/
def strOfBoundDateMethod : PyStr :=
  "<built-in method date of datetime.datetime object>".data

/-- The value stored into `self.asof_date` (`src/data.py` line 53,
`src/data_perm.py` line 21). -/
def asofFieldValue (a : PyObj) : PyObj :=
  match a with
  | .pyDatetime _ _ _ => .pyStrV strOfBoundDateMethod
  | x => x

/-- C10: the constructors store a non-`datetime` `asof_date` argument (date
objects, strings) completely unchanged; a `datetime` argument is stored as
`str(asof_date.date)` — the string of the bound method, which is never the
ISO calendar-date string of that datetime. -/
theorem asof_date_field_behaviour :
    (∀ a : PyObj, (∀ y m d, a ≠ .pyDatetime y m d) → asofFieldValue a = a) ∧
    (∀ y m d : Nat,
      asofFieldValue (.pyDatetime y m d) = .pyStrV strOfBoundDateMethod ∧
      strOfBoundDateMethod ≠ formatISODate y m d) := by
  constructor
  · intro a ha
    cases a with
    | pyDatetime y m d => exact absurd rfl (ha y m d)
    | pyDate y m d => rfl
    | pyStrV s => rfl
  · intro y m d
    refine ⟨rfl, ?_⟩
    intro h
    have e1 : strOfBoundDateMethod =
        '<' :: ("built-in method date of datetime.datetime object>".data) := rfl
    have e2 : formatISODate y m d = digitChar (y / 1000) ::
        (digitChar (y / 100) :: digitChar (y / 10) :: digitChar y ::
          '-' :: (pad2 m ++ '-' :: pad2 d)) := rfl
    rw [e1, e2] at h
    have hc : '<' = digitChar (y / 1000) := (List.cons.injEq _ _ _ _).mp h |>.1
    have := digitChar_isDigit (y / 1000)
    rw [← hc] at this
    exact absurd this (by decide)

/-- Witness for C10 at a `date` object and a concrete `datetime`. -/
theorem asof_date_field_behaviour_witness :
    asofFieldValue (.pyDate 2025 3 1) = .pyDate 2025 3 1 ∧
    (asofFieldValue (.pyDatetime 2025 3 1) = .pyStrV strOfBoundDateMethod ∧
      strOfBoundDateMethod ≠ formatISODate 2025 3 1) :=
  ⟨asof_date_field_behaviour.1 (.pyDate 2025 3 1)
      (fun y m d h => by exact absurd h (by simp)),
   asof_date_field_behaviour.2 2025 3 1⟩

/-! ### `VisaWaitTimeData.__init__` and the wait-time page fetch

`__init__` (src/data.py lines 52-61) stores `asof_date`, GETs the wait-time
page, and fills `update_date` only when the status is 200; on any other
status it falls through and the object is left with `update_date = None`.
`read_visa_wait_times` (line 126) re-fetches the same URL through
`pd.read_html`, whose underlying `urllib` fetch raises `HTTPError` on any
non-2xx status. -/

structure HttpResponse where
  status : Nat
  body : PyStr
deriving DecidableEq

/-- The BeautifulSoup extraction of the "Last updated:" date (src/data.py
lines 58-61) is a library boundary; it is abstracted as a function from the
page body, evaluated only in the 200 branch. -/
def init_update_date (parseUpdate : PyStr → PyStr) (res : HttpResponse) :
    Option PyStr :=
  if res.status = 200 then some (parseUpdate res.body) else none

/-- The state a `VisaWaitTimeData` instance holds after `__init__`. -/
structure VisaWaitTimeState where
  asof_date : PyObj
  update_date : Option PyStr
deriving DecidableEq

/-- `VisaWaitTimeData.__init__` (src/data.py lines 52-61). -/
def visaWaitTimeData_init (parseUpdate : PyStr → PyStr) (asof : PyObj)
    (res : HttpResponse) : VisaWaitTimeState :=
  { asof_date := asofFieldValue asof
    update_date := init_update_date parseUpdate res }

/-- A table as parsed by `pd.read_html`, column-oriented:
`(header, cells)`, a cell being a string or `NaN`. -/
abbrev RawTable := List (PyStr × List (Option PyStr))

/-- `pd.read_html(url)`: the underlying `urllib` GET raises `HTTPError` on a
non-2xx status; on success the tables are parsed from the body (the HTML
table parser itself is a library boundary, abstracted as `parseTables`). -/
def read_html (parseTables : PyStr → List RawTable) (res : HttpResponse) :
    Except PyStr (List RawTable) :=
  if 200 ≤ res.status ∧ res.status < 300 then .ok (parseTables res.body)
  else .error ("HTTPError".data)

/-! ### `VisaWaitTimeData.read_visa_wait_times` (src/data.py lines 124-140) -/

/-- `VisaWaitTimeData.VISA_TYPES` (src/data.py lines 46-50). -/
def VISA_TYPES : List (PyStr × PyStr) :=
  [("H,L,O,P,Q".data, "Petition-Based (H,L,O,P,Q)".data),
   ("F,M,J".data, "Study and Exchange (F,M,J)".data),
   ("C,D,C1/D".data, "Crew and Transit (C,D,C1/D)".data),
   ("B1/B2".data, "Tourism and Visit (B1/B2)".data)]

/-- `re.search(r'\((.*?)\)', col)`: the text between the first `'('` that is
followed by some `')'` and the next `')'` after it; `none` when the pattern
does not match anywhere. -/
def parenGroup : PyStr → Option PyStr
  | [] => none
  | c :: rest =>
    if c = '(' ∧ ')' ∈ rest then some (rest.takeWhile (fun ch => ch ≠ ')'))
    else parenGroup rest

/-- One cell of a new-format wait column (src/data.py lines 128-131):
`fillna("NA")`, `str.split("month")[0].strip()`, `astype(str)`. -/
def newWaitCell (c : Option PyStr) : PyStr :=
  stripChars (takeUntilPat ("month".data) (c.getD ("NA".data)))

/-- Cells of an output column of `read_visa_wait_times`. -/
inductive OutCells where
  /-- the first column passes through the loop untouched -/
  | untouched (cells : List (Option PyStr))
  /-- a processed wait-time column -/
  | normalized (cells : List PyStr)
  /-- `df[name] = scalar` broadcasts one value (`none` models Python `None`) -/
  | broadcast (v : Option PyObj)
deriving DecidableEq

/-- An output table: column headers may be Python `None` after the rename
through `VISA_TYPES.get`. -/
abbrev OutTable := List (Option PyStr × OutCells)

/-- The per-column body of the loop in src/data.py lines 127-136: transform
the cells, then either drop the column (header contains "Average wait
times"), raise `AttributeError` (header has no parenthesized token, so
`re.search(...)` is `None` and `.group(1)` fails), or rename the column to
`VISA_TYPES.get(code)` — which is Python `None` when the code is unmapped. -/
def processWaitCol (col : PyStr × List (Option PyStr)) :
    Except PyStr (Option (Option PyStr × OutCells)) :=
  let cells := OutCells.normalized (col.2.map newWaitCell)
  if containsSub col.1 ("Average wait times".data) then .ok none
  else
    match parenGroup col.1 with
    | none => .error ("AttributeError".data)
    | some tok => .ok (some (List.lookup tok VISA_TYPES, cells))

/-- Sequential effectful map: processes columns left to right and stops at
the first raised exception, like the Python `for` loop. -/
def mapME (f : α → Except ε β) : List α → Except ε (List β)
  | [] => .ok []
  | a :: l =>
    match f a with
    | .error e => .error e
    | .ok b =>
      match mapME f l with
      | .error e => .error e
      | .ok bs => .ok (b :: bs)

theorem mapME_mem {f : α → Except ε β} {l : List α} {out : List β} {x : α}
    {y : β} (h : mapME f l = .ok out) (hx : x ∈ l) (hy : f x = .ok y) :
    y ∈ out := by
  induction l generalizing out with
  | nil => cases hx
  | cons a l ih =>
    unfold mapME at h
    rcases ha : f a with e | b <;> rw [ha] at h
    · cases h
    · rcases hl : mapME f l with e | bs <;> rw [hl] at h
      · cases h
      · cases h
        rcases List.mem_cons.mp hx with rfl | hx
        · have : b = y := by rw [ha] at hy; cases hy; rfl
          exact this ▸ List.mem_cons_self _ _
        · exact List.mem_cons_of_mem _ (ih hl hx)

/-- The two columns appended at the end (src/data.py lines 138-139). -/
def tailCols (st : VisaWaitTimeState) : OutTable :=
  [(some ("asof_date".data), .broadcast (some st.asof_date)),
   (some ("update_date".data), .broadcast (st.update_date.map PyObj.pyStrV))]

/-- `VisaWaitTimeData.read_visa_wait_times` (src/data.py lines 124-140). -/
def read_visa_wait_times (parseTables : PyStr → List RawTable)
    (st : VisaWaitTimeState) (res : HttpResponse) : Except PyStr OutTable :=
  match read_html parseTables res with
  | .error e => .error e
  | .ok tables =>
    match tables with
    | [] => .error ("IndexError".data)
    | df :: _ =>
      match df with
      | [] => .ok (tailCols st)
      | first :: rest =>
        match mapME processWaitCol rest with
        | .error e => .error e
        | .ok processed =>
          .ok ((some first.1, .untouched first.2) ::
            (processed.filterMap id ++ tailCols st))

/-- C3 counterexample: with the wait-time page answering HTTP 503, the
`VisaWaitTimeData` constructor completes normally and returns an object in
the partial state `update_date = None` — it does not abort. -/
theorem visa_init_completes_on_503 :
    visaWaitTimeData_init (fun _ => []) (.pyStrV ("2025-03-01".data)) ⟨503, []⟩ =
      { asof_date := .pyStrV ("2025-03-01".data), update_date := none } := rfl

/-- C3 (amended): on a non-2xx wait-time fetch the constructor completes
normally but with `update_date = None`; the run still aborts with a fetch
error and produces no artifact, because `read_visa_wait_times`' own
`pd.read_html` fetch of the page raises `HTTPError`. -/
theorem fetch_error_aborts_run_not_init (parseUpdate : PyStr → PyStr)
    (parseTables : PyStr → List RawTable) (asof : PyObj) (res : HttpResponse)
    (st : VisaWaitTimeState) (h : ¬(200 ≤ res.status ∧ res.status < 300)) :
    (visaWaitTimeData_init parseUpdate asof res).update_date = none ∧
    read_visa_wait_times parseTables st res = .error ("HTTPError".data) := by
  constructor
  · have h200 : res.status ≠ 200 := by
      intro he
      exact h (by rw [he]; exact ⟨le_refl _, by norm_num⟩)
    simp [visaWaitTimeData_init, init_update_date, h200]
  · unfold read_visa_wait_times read_html
    rw [if_neg h]

/-- Witness for the amended C3 at a concrete 503 response. -/
theorem fetch_error_aborts_run_not_init_witness :
    ¬(200 ≤ 503 ∧ 503 < 300) ∧
    ((visaWaitTimeData_init (fun _ => []) (.pyStrV ("2025-03-01".data))
        ⟨503, []⟩).update_date = none ∧
      read_visa_wait_times (fun _ => [])
        ⟨.pyStrV ("2025-03-01".data), none⟩ ⟨503, []⟩ =
          .error ("HTTPError".data)) :=
  ⟨by decide,
   fetch_error_aborts_run_not_init (fun _ => []) (fun _ => [])
     (.pyStrV ("2025-03-01".data)) ⟨503, []⟩
     ⟨.pyStrV ("2025-03-01".data), none⟩ (by decide)⟩

/-! #### Concrete new-format fixture with an unmapped visa-code column -/

/-- A wait column whose parenthesized code `X9` is not in `VISA_TYPES`. -/
def waitColX9 : PyStr × List (Option PyStr) :=
  ("Interview Wait (X9) months".data, [some ("4 months go".data)])

def waitTableX9 : RawTable :=
  [("City/Post".data, [some ("Zikitown".data)]), waitColX9]

def waitStateX9 : VisaWaitTimeState :=
  ⟨.pyStrV ("2025-03-01".data), some ("2025-02-28".data)⟩

def waitOutX9 : OutTable :=
  [(some ("City/Post".data), .untouched [some ("Zikitown".data)]),
   (none, .normalized ["4".data]),
   (some ("asof_date".data), .broadcast (some (.pyStrV ("2025-03-01".data)))),
   (some ("update_date".data), .broadcast (some (.pyStrV ("2025-02-28".data))))]

/-- C2 counterexample: a column whose parenthesized code (`X9`) is not a key
of `VISA_TYPES` is **not** removed by `read_visa_wait_times`; it stays in the
output renamed to Python `None` (`VISA_TYPES.get` returns `None`, line 136 of
src/data.py), so the output does contain a `None`-named column. -/
theorem read_visa_wait_times_keeps_unmapped_column :
    read_visa_wait_times (fun _ => [waitTableX9]) waitStateX9 ⟨200, []⟩ =
      .ok waitOutX9 ∧
    parenGroup waitColX9.1 = some ("X9".data) ∧
    List.lookup ("X9".data) VISA_TYPES = none ∧
    (none, OutCells.normalized ["4".data]) ∈ waitOutX9 :=
  ⟨rfl, rfl, rfl, by decide⟩

/-- C2 (amended): only columns whose header contains `"Average wait times"`
are dropped by `read_visa_wait_times`; any other column whose parenthesized
code is not a key of `VISA_TYPES` is kept and renamed to Python `None`, so
the output carries a `None`-named column for it. -/
theorem read_visa_wait_times_unmapped_renamed_none
    (parseTables : PyStr → List RawTable) (st : VisaWaitTimeState)
    (res : HttpResponse) (first col : PyStr × List (Option PyStr))
    (rest : List (PyStr × List (Option PyStr))) (rst : List RawTable)
    (out : OutTable) (tok : PyStr)
    (hres : 200 ≤ res.status ∧ res.status < 300)
    (hparse : parseTables res.body = (first :: rest) :: rst)
    (hcol : col ∈ rest)
    (havg : containsSub col.1 ("Average wait times".data) = false)
    (htok : parenGroup col.1 = some tok)
    (hmiss : List.lookup tok VISA_TYPES = none)
    (hok : read_visa_wait_times parseTables st res = .ok out) :
    (none, OutCells.normalized (col.2.map newWaitCell)) ∈ out := by
  have hok' : (match mapME processWaitCol rest with
      | .error e => (.error e : Except PyStr OutTable)
      | .ok processed => .ok ((some first.1, .untouched first.2) ::
          (processed.filterMap id ++ tailCols st))) = .ok out := by
    rw [← hok]
    unfold read_visa_wait_times read_html
    rw [if_pos hres, hparse]
  rcases hm : mapME processWaitCol rest with e | processed <;> rw [hm] at hok'
  · cases hok'
  · cases hok'
    have hcolproc : processWaitCol col =
        .ok (some (none, .normalized (col.2.map newWaitCell))) := by
      unfold processWaitCol
      simp only [havg, Bool.false_eq_true, if_false, htok, hmiss]
    have hmem : some (none, OutCells.normalized (col.2.map newWaitCell)) ∈
        processed := mapME_mem hm hcol hcolproc
    have hmem2 : (none, OutCells.normalized (col.2.map newWaitCell)) ∈
        processed.filterMap id :=
      List.mem_filterMap.mpr ⟨some _, hmem, rfl⟩
    exact List.mem_cons_of_mem _ (List.mem_append_left _ hmem2)

/-- Witness for the amended C2 at the concrete fixture table. -/
theorem read_visa_wait_times_unmapped_renamed_none_witness :
    ((200 ≤ 200 ∧ 200 < 300) ∧
      (fun _ : PyStr => [waitTableX9]) ([] : PyStr) =
        (("City/Post".data, [some ("Zikitown".data)]) :: [waitColX9]) :: [] ∧
      waitColX9 ∈ [waitColX9] ∧
      containsSub waitColX9.1 ("Average wait times".data) = false ∧
      parenGroup waitColX9.1 = some ("X9".data) ∧
      List.lookup ("X9".data) VISA_TYPES = none ∧
      read_visa_wait_times (fun _ => [waitTableX9]) waitStateX9 ⟨200, []⟩ =
        .ok waitOutX9) ∧
    (none, OutCells.normalized (waitColX9.2.map newWaitCell)) ∈ waitOutX9 :=
  ⟨⟨by decide, rfl, by decide, by decide, rfl, rfl, rfl⟩,
   read_visa_wait_times_unmapped_renamed_none (fun _ => [waitTableX9])
     waitStateX9 ⟨200, []⟩ ("City/Post".data, [some ("Zikitown".data)])
     waitColX9 [waitColX9] [] waitOutX9 ("X9".data)
     (by decide) rfl (by decide) (by decide) rfl rfl rfl⟩

/-! ### `ImmigrationData.get_uscis_data` — bulletin date normalization

Embeds `pd.to_datetime(col, format="%d%b%y", errors="coerce")` followed by
`.dt.strftime("%Y-%m-%d")` (src/data_perm.py lines 88-89), applied to one
cell.  `strptime`-style matching: `%d` is one or two digits (two preferred,
with backtracking), `%b` a case-insensitive three-letter month abbreviation,
`%y` one or two digits mapped to 1969-2068, the whole string must match
(`exact=True`), and an out-of-range day makes the date invalid.  A failed
parse is coerced to `NaT` (`none`), never raised. -/

def digitVal (c : Char) : Nat := c.toNat - 48

/-- The `%b` month-abbreviation table (lower-cased three-letter keys). -/
def monthNum3 (a b c : Char) : Option Nat :=
  if a = 'j' ∧ b = 'a' ∧ c = 'n' then some 1
  else if a = 'f' ∧ b = 'e' ∧ c = 'b' then some 2
  else if a = 'm' ∧ b = 'a' ∧ c = 'r' then some 3
  else if a = 'a' ∧ b = 'p' ∧ c = 'r' then some 4
  else if a = 'm' ∧ b = 'a' ∧ c = 'y' then some 5
  else if a = 'j' ∧ b = 'u' ∧ c = 'n' then some 6
  else if a = 'j' ∧ b = 'u' ∧ c = 'l' then some 7
  else if a = 'a' ∧ b = 'u' ∧ c = 'g' then some 8
  else if a = 's' ∧ b = 'e' ∧ c = 'p' then some 9
  else if a = 'o' ∧ b = 'c' ∧ c = 't' then some 10
  else if a = 'n' ∧ b = 'o' ∧ c = 'v' then some 11
  else if a = 'd' ∧ b = 'e' ∧ c = 'c' then some 12
  else none

/-- `%b`: consume a case-insensitive month abbreviation. -/
def monthFromAbbrev : PyStr → Option (Nat × PyStr)
  | a :: b :: c :: rest => (monthNum3 a.toLower b.toLower c.toLower).map (fun m => (m, rest))
  | _ => none

/-- `%y` at the end of the string: exactly one or two digits remain. -/
def parseYY : PyStr → Option Nat
  | [a] => if a.isDigit then some (digitVal a) else none
  | [a, b] => if a.isDigit && b.isDigit then some (10 * digitVal a + digitVal b) else none
  | _ => none

/-- Two-digit years pivot at 69 (POSIX rule used by `strptime`). -/
def yearFull (yy : Nat) : Nat := if yy ≤ 68 then 2000 + yy else 1900 + yy

def isLeap (y : Nat) : Bool := (y % 4 = 0 && y % 100 ≠ 0) || y % 400 = 0

def daysInMonth (y m : Nat) : Nat :=
  match m with
  | 1 => 31 | 2 => if isLeap y then 29 else 28 | 3 => 31 | 4 => 30
  | 5 => 31 | 6 => 30 | 7 => 31 | 8 => 31 | 9 => 30 | 10 => 31
  | 11 => 30 | 12 => 31 | _ => 0

/-- After the day digits: `%b`, `%y`, end of string, day-of-month check. -/
def parseAfterDay (day : Nat) (s : PyStr) : Option (Nat × Nat × Nat) :=
  match monthFromAbbrev s with
  | none => none
  | some (m, rest) =>
    match parseYY rest with
    | none => none
    | some yy =>
      let y := yearFull yy
      if 1 ≤ day ∧ day ≤ daysInMonth y m then some (y, m, day) else none

/-- Full `%d%b%y` match of a cell: greedy two-digit day with backtracking to
one digit.  Returns `(year, month, day)` or `none`. -/
def parseDMBY : PyStr → Option (Nat × Nat × Nat)
  | [] => none
  | c0 :: rest =>
    if c0.isDigit then
      match rest with
      | [] => none
      | c1 :: rest2 =>
        if c1.isDigit then
          match parseAfterDay (10 * digitVal c0 + digitVal c1) rest2 with
          | some v => some v
          | none => parseAfterDay (digitVal c0) rest
        else parseAfterDay (digitVal c0) rest
    else none

/-- One chargeability-area cell of `get_uscis_data` (src/data_perm.py lines
88-89): parse with `%d%b%y`, coerce failures to null, format as ISO. -/
def get_uscis_data_date_cell (c : Option PyStr) : Option PyStr :=
  match c with
  | none => none
  | some s => (parseDMBY s).map (fun v => formatISODate v.1 v.2.1 v.2.2)

theorem monthNum3_not_alpha (x y z : Char) (hz : z.isAlpha = false) :
    monthNum3 x y z = none := by
  unfold monthNum3
  repeat rw [if_neg (by rintro ⟨h1, h2, rfl⟩; revert hz; decide)]

theorem monthFromAbbrev_cons (a b c : Char) (rest : PyStr) :
    monthFromAbbrev (a :: b :: c :: rest) =
      (monthNum3 a.toLower b.toLower c.toLower).map (fun m => (m, rest)) := rfl

theorem parseAfterDay_not_alpha (day : Nat) (a b z : Char) (rest : PyStr)
    (hz : z.toLower.isAlpha = false) :
    parseAfterDay day (a :: b :: z :: rest) = none := by
  unfold parseAfterDay
  rw [monthFromAbbrev_cons, monthNum3_not_alpha _ _ _ hz]
  rfl

/-- The ISO output of the normalizer never matches `%d%b%y` again: after one
or two day digits the next three characters still include a digit or the
`'-'` separator where a month abbreviation would have to be. -/
theorem parseDMBY_formatISO (y m d : Nat) :
    parseDMBY (formatISODate y m d) = none := by
  have e : formatISODate y m d = digitChar (y / 1000) :: digitChar (y / 100) ::
      digitChar (y / 10) :: digitChar y :: '-' :: (pad2 m ++ '-' :: pad2 d) := rfl
  rw [e]
  have h1 : parseAfterDay
      (10 * digitVal (digitChar (y / 1000)) + digitVal (digitChar (y / 100)))
      (digitChar (y / 10) :: digitChar y :: '-' :: (pad2 m ++ '-' :: pad2 d)) =
        none := parseAfterDay_not_alpha _ _ _ _ _ (by decide)
  have h2 : parseAfterDay (digitVal (digitChar (y / 1000)))
      (digitChar (y / 100) :: digitChar (y / 10) :: digitChar y :: '-' ::
        (pad2 m ++ '-' :: pad2 d)) = none :=
    parseAfterDay_not_alpha _ _ _ _ _ (digitChar_toLower_not_alpha y)
  unfold parseDMBY
  simp only [digitChar_isDigit, eq_self_iff_true, if_true, h1, h2]

/-- C4 counterexample: the bulletin-cell normalizer maps the raw cell
`"15JAN24"` to the ISO date `"2024-01-15"`, but applying it to that
already-ISO value yields null, not the value unchanged — so it is not
idempotent on dates. -/
theorem get_uscis_data_date_cell_not_idempotent :
    get_uscis_data_date_cell (some ("15JAN24".data)) = some ("2024-01-15".data) ∧
    get_uscis_data_date_cell (some ("2024-01-15".data)) = none ∧
    (none : Option PyStr) ≠ some ("2024-01-15".data) :=
  ⟨rfl, rfl, by decide⟩

/-- C4 (amended): a second application of the bulletin-cell normalizer is
always null — sentinel tokens such as `"Current"` give null on both
applications, and an ISO date produced by a successful first application
fails the `%d%b%y` parse, so normalization is not idempotent on dates. -/
theorem get_uscis_data_date_cell_second_application (c : Option PyStr) :
    get_uscis_data_date_cell (get_uscis_data_date_cell c) = none ∧
    get_uscis_data_date_cell (some ("Current".data)) = none ∧
    get_uscis_data_date_cell none = none := by
  refine ⟨?_, rfl, rfl⟩
  have hsome : ∀ s : PyStr, get_uscis_data_date_cell (some s) =
      (parseDMBY s).map (fun v => formatISODate v.1 v.2.1 v.2.2) := fun _ => rfl
  cases c with
  | none => rfl
  | some s =>
    rcases h : parseDMBY s with _ | ⟨y, m, d⟩
    · rw [hsome, h]
      rfl
    · rw [hsome, h, Option.map_some', hsome, parseDMBY_formatISO]
      rfl

/-- Witness for the amended C4 at the concrete cell `"15JAN24"`. -/
theorem get_uscis_data_date_cell_second_application_witness :
    get_uscis_data_date_cell (get_uscis_data_date_cell (some ("15JAN24".data))) =
      none ∧
    get_uscis_data_date_cell (some ("Current".data)) = none ∧
    get_uscis_data_date_cell none = none :=
  get_uscis_data_date_cell_second_application (some ("15JAN24".data))

/-! ### The gazetteer and the city resolver

`src/data.py` lines 142-177.  A `CityRec` is one row of the world-cities
table; `population` is `Option Nat` because the CSV column may be empty
(`NaN`), and `sort_values(..., ascending=False)` places `NaN` last
(`na_position="last"`).  Coordinates are carried opaquely (never computed
on).  The `country` column of the gazetteer is never empty, so a failed
merge is detected exactly by "no matching record" (`Option CityRec`). -/

structure CityRec where
  city_ascii : PyStr
  country : PyStr
  iso2 : PyStr
  lat : Int
  lng : Int
  population : Option Nat
deriving DecidableEq

/-- One row of the scraped wait-time table: the `City/Post` key plus the
already-normalized wait columns, carried through the merge untouched. -/
structure VisaRow where
  city_post : PyStr
  cells : List (Option PyStr)
deriving DecidableEq

/-- Strict "sorts earlier under `sort_values(by="population",
ascending=False, na_position="last")`": a larger population, or any
population against `NaN`. -/
def popGt : Option Nat → Option Nat → Bool
  | some x, some y => decide (y < x)
  | some _, none => true
  | none, _ => false

/-- `df_city.sort_values(by="population", ascending=False).head(1)` keeps the
running first-seen maximum: pandas `nargsort` reverses the values, argsorts
ascending (a stable insertion sort for the small per-city groups) and
reverses the indexer back, so equal populations keep gazetteer order and
`head(1)` is the first row attaining the maximum. -/
def selectBest1 (b : CityRec) : List CityRec → CityRec
  | [] => b
  | r :: rest => selectBest1 (if popGt r.population b.population then r else b) rest

def selectBest : List CityRec → Option CityRec
  | [] => none
  | r :: rest => some (selectBest1 r rest)

/-- `city_df["city_ascii"] == city` for one gazetteer row; the second-pass
city list may contain `NaN` (`none`), which compares unequal to every
string. -/
def matchesCity (c : Option PyStr) (rec : CityRec) : Bool :=
  match c with
  | some s => rec.city_ascii == s
  | none => false

/-- `VisaWaitTimeData.select_dup_cities` (src/data.py lines 142-153): for
each requested city keep the first row of the population-descending sort of
its exact `city_ascii` matches; cities with no match contribute no row
(`head(1)` of an empty frame is empty). -/
def select_dup_cities (city_df : List CityRec) (cities : List (Option PyStr)) :
    List CityRec :=
  cities.filterMap (fun c => selectBest (city_df.filter (matchesCity c)))

/-- `VisaWaitTimeData.MISSING_CITIES` (src/data.py lines 24-44). -/
def MISSING_CITIES : List (PyStr × PyStr) :=
  [("Chennai (Madras)".data, "Chennai".data),
   ("Ciudad Juarez".data, "Juarez".data),
   ("Curacao".data, "Willemstad".data),
   ("Dar Es Salaam".data, "Dar es Salaam".data),
   ("Kuwait".data, "Kuwait City".data),
   ("Mexicali Tpf".data, "Mexicali".data),
   ("Mumbai (Bombay)".data, "Mumbai".data),
   ("N`Djamena".data, "N\x27Djamena".data),
   ("Osaka/Kobe".data, "Osaka".data),
   ("Port Au Prince".data, "Port-au-Prince".data),
   ("Port Of Spain".data, "Port of Spain".data),
   ("Quebec".data, "Quebec City".data),
   ("Rio De Janeiro".data, "Rio de Janeiro".data),
   ("St Georges".data, "Saint-Georges".data),
   ("St Petersburg".data, "Saint Petersburg".data),
   ("Tel Aviv".data, "Tel Aviv-Yafo".data),
   ("Tijuana Tpf".data, "Tijuana".data),
   ("Usun-New York".data, "New York".data),
   ("Washington Refugee Processing Center".data, "Washington".data)]

/-- `Series.unique()`: first occurrences in order. -/
def uniquesAux [DecidableEq α] (seen : List α) : List α → List α
  | [] => []
  | a :: rest =>
    if a ∈ seen then uniquesAux seen rest else a :: uniquesAux (a :: seen) rest

def uniques [DecidableEq α] (l : List α) : List α := uniquesAux [] l

/-- The first-pass merge (src/data.py lines 160-163): the left join of a row
against `select_dup_cities(city_df, visa_df["City/Post"].unique())` on
`City/Post == city_ascii`.  The selected table has at most one row per city,
so the join is a first-match lookup. -/
def directLookup (city_df : List CityRec) (visa_df : List VisaRow)
    (name : PyStr) : Option CityRec :=
  (select_dup_cities city_df ((uniques (visa_df.map VisaRow.city_post)).map some)).find?
    (fun rec => rec.city_ascii == name)

/-- The second-pass merge (src/data.py lines 166-170): map the raw name
through `MISSING_CITIES` (missing keys give `NaN`), select over the mapped
alias list, and left-join on `city_ascii`.  A `NaN` alias matches nothing
because the selected table never carries a `NaN` key. -/
def aliasLookup (city_df : List CityRec) (aliasT : List (PyStr × PyStr))
    (nullRows : List VisaRow) (name : PyStr) : Option CityRec :=
  (List.lookup name aliasT).bind (fun a =>
    (select_dup_cities city_df
        (uniques (nullRows.map (fun row => List.lookup row.city_post aliasT)))).find?
      (fun rec => rec.city_ascii == a))

/-- `VisaWaitTimeData.map_city_country` (src/data.py lines 156-177),
parameterized by the alias table (the source reads the class constant
`MISSING_CITIES`).  Returns the rows whose `country` is not null — the rows
the function returns — together with the warning list of unmapped city names
printed on line 175. -/
def map_city_country (city_df : List CityRec) (aliasT : List (PyStr × PyStr))
    (visa_df : List VisaRow) :
    List (VisaRow × Option CityRec) × List PyStr :=
  let resolve1 := fun row => directLookup city_df visa_df row.city_post
  let matched := visa_df.filterMap
    (fun row => (resolve1 row).map (fun rec => (row, some rec)))
  let nullRows := visa_df.filter (fun row => (resolve1 row).isNone)
  let resolve2 := fun row => aliasLookup city_df aliasT nullRows row.city_post
  let combined := matched ++ nullRows.map (fun row => (row, resolve2 row))
  let unmapped := uniques
    ((combined.filter (fun p => p.2.isNone)).map (fun p => p.1.city_post))
  (combined.filter (fun p => p.2.isSome), unmapped)

/-! #### Order facts about `popGt` -/

theorem popGt_irrefl (a : Option Nat) : popGt a a = false := by
  cases a <;> simp [popGt]

theorem popGt_asymm {a b : Option Nat} (h : popGt a b = true) :
    popGt b a = false := by
  cases a <;> cases b <;> simp_all [popGt] <;> omega

theorem popGt_gt_of_not_gt {r b c : Option Nat} (h1 : popGt r b = true)
    (h2 : popGt r c = false) : popGt c b = true := by
  cases r <;> cases b <;> cases c <;> simp_all [popGt] <;> omega

theorem popGt_gt_of_le {x b r : Option Nat} (h1 : popGt x b = true)
    (h2 : popGt r b = false) : popGt x r = true := by
  cases x <;> cases b <;> cases r <;> simp_all [popGt] <;> omega

/-- `selectBest1 b l` is the first element of `b :: l` attaining the
population maximum: everything before it is strictly smaller, nothing in the
list is strictly larger. -/
theorem selectBest1_spec (l : List CityRec) (b : CityRec) :
    ∃ l₁ l₂, b :: l = l₁ ++ selectBest1 b l :: l₂ ∧
      (∀ s ∈ l₁, popGt (selectBest1 b l).population s.population = true) ∧
      (∀ s ∈ b :: l, popGt s.population (selectBest1 b l).population = false) := by
  induction l generalizing b with
  | nil =>
    refine ⟨[], [], rfl, by simp, ?_⟩
    intro s hs
    rcases List.mem_cons.mp hs with rfl | h
    · exact popGt_irrefl _
    · cases h
  | cons r rest ih =>
    rcases hpg : popGt r.population b.population with _ | _
    · -- `r` does not beat `b`; the running best stays `b`
      have hb' : selectBest1 b (r :: rest) = selectBest1 b rest := by
        simp [selectBest1, hpg]
      obtain ⟨l₁, l₂, hdec, hearly, hmax⟩ := ih b
      cases l₁ with
      | nil =>
        have hbest : selectBest1 b rest = b := by
          have h0 := hdec
          rw [List.nil_append] at h0
          exact ((List.cons.injEq _ _ _ _).mp h0).1.symm
        refine ⟨[], r :: (b :: rest).tail, ?_, by simp, ?_⟩
        · rw [hb', hbest]
          rfl
        · intro s hs
          rw [hb', hbest]
          rcases List.mem_cons.mp hs with rfl | hs'
          · exact popGt_irrefl _
          · rcases List.mem_cons.mp hs' with rfl | hs''
            · exact hpg
            · exact hbest ▸ hmax s (List.mem_cons_of_mem _ hs'')
      | cons x l₁' =>
        have hx : b = x ∧ rest = l₁' ++ selectBest1 b rest :: l₂ := by
          rw [List.cons_append] at hdec
          exact (List.cons.injEq _ _ _ _).mp hdec
        have hbx : popGt (selectBest1 b rest).population b.population = true := by
          have := hearly x (List.mem_cons_self _ _)
          rw [← hx.1] at this
          exact this
        refine ⟨b :: r :: l₁', l₂, ?_, ?_, ?_⟩
        · rw [hb']
          simp only [List.cons_append]
          rw [← hx.2]
        · intro s hs
          rw [hb']
          rcases List.mem_cons.mp hs with rfl | hs'
          · exact hbx
          · rcases List.mem_cons.mp hs' with rfl | hs''
            · exact popGt_gt_of_le hbx hpg
            · exact hearly s (List.mem_cons_of_mem _ hs'')
        · intro s hs
          rw [hb']
          rcases List.mem_cons.mp hs with rfl | hs'
          · exact hmax s (List.mem_cons_self _ _)
          · rcases List.mem_cons.mp hs' with rfl | hs''
            · exact popGt_asymm (popGt_gt_of_le hbx hpg)
            · exact hmax s (List.mem_cons_of_mem _ hs'')
    · -- `r` beats `b`; the running best becomes `r`
      have hb' : selectBest1 b (r :: rest) = selectBest1 r rest := by
        simp [selectBest1, hpg]
      obtain ⟨l₁, l₂, hdec, hearly, hmax⟩ := ih r
      have hrbest : popGt r.population (selectBest1 r rest).population = false :=
        hmax r (List.mem_cons_self _ _)
      have hbestb : popGt (selectBest1 r rest).population b.population = true :=
        popGt_gt_of_not_gt hpg hrbest
      refine ⟨b :: l₁, l₂, ?_, ?_, ?_⟩
      · rw [hb', List.cons_append, ← hdec]
      · intro s hs
        rw [hb']
        rcases List.mem_cons.mp hs with rfl | hs'
        · exact hbestb
        · exact hearly s hs'
      · intro s hs
        rw [hb']
        rcases List.mem_cons.mp hs with rfl | hs'
        · exact popGt_asymm hbestb
        · exact hmax s hs'

theorem selectBest_mem {l : List CityRec} {r : CityRec}
    (h : selectBest l = some r) : r ∈ l := by
  cases l with
  | nil => cases h
  | cons b rest =>
    have hr : r = selectBest1 b rest := by
      unfold selectBest at h
      exact (Option.some.inj h).symm
    obtain ⟨l₁, l₂, hdec, -, -⟩ := selectBest1_spec rest b
    rw [hr, hdec]
    exact List.mem_append_right _ (List.mem_cons_self _ _)

/-- C1: for a raw city name with at least one exact `ascii_name` match in the
gazetteer, `select_dup_cities` returns exactly the record with the highest
population among the matches, and on equal populations the one appearing
first in the gazetteer (every earlier match is strictly smaller, no match is
strictly larger — first-seen, deterministic). -/
theorem select_dup_cities_picks_first_max (city_df : List CityRec) (c : PyStr)
    (h : city_df.filter (fun rec => rec.city_ascii == c) ≠ []) :
    ∃ r l₁ l₂,
      select_dup_cities city_df [some c] = [r] ∧
      city_df.filter (fun rec => rec.city_ascii == c) = l₁ ++ r :: l₂ ∧
      (∀ s ∈ l₁, popGt r.population s.population = true) ∧
      (∀ s ∈ city_df.filter (fun rec => rec.city_ascii == c),
        popGt s.population r.population = false) := by
  rcases hc : city_df.filter (fun rec => rec.city_ascii == c) with _ | ⟨b, rest⟩
  · exact absurd hc h
  · have hfil : city_df.filter (matchesCity (some c)) = b :: rest := hc
    obtain ⟨l₁, l₂, hdec, hearly, hmax⟩ := selectBest1_spec rest b
    refine ⟨selectBest1 b rest, l₁, l₂, ?_, ?_, hearly, ?_⟩
    · simp [select_dup_cities, hfil, selectBest]
    · rw [hc, hdec]
    · rw [hc]
      exact hmax

/-- The two-record tie-free fixture from the specification:
`{CityA: pop=100}, {CityA: pop=500}`. -/
def gazCityA : List CityRec :=
  [⟨"CityA".data, "Xland".data, "XL".data, 10, 20, some 100⟩,
   ⟨"CityA".data, "Yland".data, "YL".data, 30, 40, some 500⟩]

/-- Witness for C1: on the fixture the resolver returns the `pop=500`
record. -/
theorem select_dup_cities_picks_first_max_witness :
    (gazCityA.filter (fun rec => rec.city_ascii == ("CityA".data)) ≠ [] ∧
      select_dup_cities gazCityA [some ("CityA".data)] =
        [⟨"CityA".data, "Yland".data, "YL".data, 30, 40, some 500⟩]) ∧
    ∃ r l₁ l₂,
      select_dup_cities gazCityA [some ("CityA".data)] = [r] ∧
      gazCityA.filter (fun rec => rec.city_ascii == ("CityA".data)) =
        l₁ ++ r :: l₂ ∧
      (∀ s ∈ l₁, popGt r.population s.population = true) ∧
      (∀ s ∈ gazCityA.filter (fun rec => rec.city_ascii == ("CityA".data)),
        popGt s.population r.population = false) :=
  ⟨⟨by decide, by decide⟩,
   select_dup_cities_picks_first_max gazCityA ("CityA".data) (by decide)⟩

/-! #### The two merge passes of `map_city_country` -/

theorem mem_uniquesAux_of_mem [DecidableEq α] {x : α} {l : List α}
    (seen : List α) (hx : x ∈ l) (hns : x ∉ seen) : x ∈ uniquesAux seen l := by
  induction l generalizing seen with
  | nil => cases hx
  | cons a rest ih =>
    unfold uniquesAux
    by_cases ha : a ∈ seen
    · rw [if_pos ha]
      rcases List.mem_cons.mp hx with rfl | hx'
      · exact absurd ha hns
      · exact ih seen hx' hns
    · rw [if_neg ha]
      by_cases hxa : x = a
      · exact hxa ▸ List.mem_cons_self _ _
      · rcases List.mem_cons.mp hx with rfl | hx'
        · exact absurd rfl hxa
        · refine List.mem_cons_of_mem _ (ih (a :: seen) hx' ?_)
          intro hmem
          rcases List.mem_cons.mp hmem with h | h
          · exact hxa h
          · exact hns h

theorem mem_uniques_of_mem [DecidableEq α] {x : α} {l : List α} (hx : x ∈ l) :
    x ∈ uniques l := mem_uniquesAux_of_mem [] hx (by simp)

/-- The first-match lookup over a `select_dup_cities` table finds exactly the
max-population selection for the requested name: every table entry selected
for another city carries that other city's `ascii_name`. -/
theorem find_in_select_dup (city_df : List CityRec) (ns : List (Option PyStr))
    (name : PyStr) (r : CityRec) (hmem : some name ∈ ns)
    (hr : selectBest (city_df.filter (matchesCity (some name))) = some r) :
    (select_dup_cities city_df ns).find? (fun rec => rec.city_ascii == name) =
      some r := by
  induction ns with
  | nil => cases hmem
  | cons n rest ih =>
    by_cases hn : n = some name
    · subst hn
      have hsdc : select_dup_cities city_df (some name :: rest) =
          r :: select_dup_cities city_df rest := by
        unfold select_dup_cities
        rw [List.filterMap_cons, hr]
      have hrmem : r ∈ city_df.filter (matchesCity (some name)) := selectBest_mem hr
      have hpred : (r.city_ascii == name) = true := (List.mem_filter.mp hrmem).2
      rw [hsdc]
      exact List.find?_cons_of_pos _ hpred
    · have hmem' : some name ∈ rest := by
        rcases List.mem_cons.mp hmem with h | h
        · exact absurd h.symm hn
        · exact h
      rcases hf : selectBest (city_df.filter (matchesCity n)) with _ | r'
      · have hsdc : select_dup_cities city_df (n :: rest) =
            select_dup_cities city_df rest := by
          unfold select_dup_cities
          rw [List.filterMap_cons, hf]
        rw [hsdc]
        exact ih hmem'
      · have hsdc : select_dup_cities city_df (n :: rest) =
            r' :: select_dup_cities city_df rest := by
          unfold select_dup_cities
          rw [List.filterMap_cons, hf]
        have hr'mem : r' ∈ city_df.filter (matchesCity n) := selectBest_mem hf
        have hmatch : matchesCity n r' = true := (List.mem_filter.mp hr'mem).2
        cases n with
        | none => simp [matchesCity] at hmatch
        | some s =>
          have hascii : r'.city_ascii = s := by
            simpa [matchesCity] using hmatch
          have hne : s ≠ name := fun hsn => hn (by rw [hsn])
          have hpred : (r'.city_ascii == name) = false := by
            rw [hascii]
            exact beq_false_of_ne hne
          rw [hsdc]
          rw [show List.find? (fun rec => rec.city_ascii == name)
              (r' :: select_dup_cities city_df rest) =
                List.find? (fun rec => rec.city_ascii == name)
                  (select_dup_cities city_df rest) from
            List.find?_cons_of_neg _ (by rw [hpred]; exact Bool.false_ne_true)]
          exact ih hmem'

/-- C5: a raw city name with an exact `ascii_name` match in the gazetteer is
resolved by the direct pass — the max-population selection over its exact
matches — and the result is the same whatever the alias table contains, so
the alias table is never consulted for it. -/
theorem map_city_country_direct_pass (city_df : List CityRec)
    (visa_df : List VisaRow) (row : VisaRow) (hrow : row ∈ visa_df)
    (hex : city_df.filter (fun rec => rec.city_ascii == row.city_post) ≠ []) :
    ∃ r, selectBest (city_df.filter (fun rec => rec.city_ascii == row.city_post)) =
        some r ∧
      ∀ aliasT : List (PyStr × PyStr),
        (row, some r) ∈ (map_city_country city_df aliasT visa_df).1 := by
  rcases hc : city_df.filter (fun rec => rec.city_ascii == row.city_post)
    with _ | ⟨b, rest⟩
  · exact absurd hc hex
  · refine ⟨selectBest1 b rest, by rw [hc]; rfl, ?_⟩
    intro aliasT
    have hres : directLookup city_df visa_df row.city_post =
        some (selectBest1 b rest) := by
      unfold directLookup
      apply find_in_select_dup
      · exact List.mem_map_of_mem _
          (mem_uniques_of_mem (List.mem_map_of_mem _ hrow))
      · show selectBest
          (city_df.filter (fun rec => rec.city_ascii == row.city_post)) = _
        rw [hc]
        rfl
    simp only [map_city_country]
    apply List.mem_filter.mpr
    refine ⟨List.mem_append_left _ ?_, rfl⟩
    apply List.mem_filterMap.mpr
    exact ⟨row, hrow, by rw [hres]; rfl⟩

/-- A one-record gazetteer holding an exact "Quebec" row. -/
def gazQuebec : List CityRec :=
  [⟨"Quebec".data, "Canada".data, "CA".data, 46, -71, some 549459⟩]

def visaQuebec : List VisaRow := [⟨"Quebec".data, [some ("5".data)]⟩]

/-- Witness for C5: "Quebec" matches the gazetteer exactly, and is resolved
by the direct pass even though `MISSING_CITIES` also has a "Quebec" entry. -/
theorem map_city_country_direct_pass_witness :
    ((⟨"Quebec".data, [some ("5".data)]⟩ : VisaRow) ∈ visaQuebec ∧
      gazQuebec.filter (fun rec => rec.city_ascii == ("Quebec".data)) ≠ []) ∧
    ∃ r, selectBest
        (gazQuebec.filter (fun rec => rec.city_ascii == ("Quebec".data))) =
          some r ∧
      ∀ aliasT : List (PyStr × PyStr),
        ((⟨"Quebec".data, [some ("5".data)]⟩ : VisaRow), some r) ∈
          (map_city_country gazQuebec aliasT visaQuebec).1 :=
  ⟨⟨by decide, by decide⟩,
   map_city_country_direct_pass gazQuebec visaQuebec
     ⟨"Quebec".data, [some ("5".data)]⟩ (by decide) (by decide)⟩

/-- C6: a raw city name unmatched by both the direct pass and the alias pass
is excluded from the DataFrame `map_city_country` returns (its records never
appear there, with any resolution), it is reported in the warning list, and
every record in the returned artifact carries a non-null country. -/
theorem map_city_country_excludes_unmatched (city_df : List CityRec)
    (aliasT : List (PyStr × PyStr)) (visa_df : List VisaRow) (row : VisaRow)
    (hrow : row ∈ visa_df)
    (h1 : directLookup city_df visa_df row.city_post = none)
    (h2 : aliasLookup city_df aliasT
        (visa_df.filter (fun w => (directLookup city_df visa_df w.city_post).isNone))
        row.city_post = none) :
    (∀ p ∈ (map_city_country city_df aliasT visa_df).1, p.2.isSome = true) ∧
    (∀ x, (row, x) ∉ (map_city_country city_df aliasT visa_df).1) ∧
    row.city_post ∈ (map_city_country city_df aliasT visa_df).2 := by
  refine ⟨?_, ?_, ?_⟩
  · intro p hp
    exact (List.mem_filter.mp hp).2
  · intro x hx
    simp only [map_city_country] at hx
    have hx2 : (Option.isSome x) = true := (List.mem_filter.mp hx).2
    have hx1 := (List.mem_filter.mp hx).1
    rcases List.mem_append.mp hx1 with hm | hm
    · obtain ⟨row', hrow', heq⟩ := List.mem_filterMap.mp hm
      rcases hd : directLookup city_df visa_df row'.city_post with _ | rec
      · rw [hd] at heq
        cases heq
      · rw [hd] at heq
        have hpair := Option.some.inj heq
        have hrr : row' = row := congrArg Prod.fst hpair
        rw [hrr] at hd
        rw [h1] at hd
        cases hd
    · obtain ⟨row', hrow', heq⟩ := List.mem_map.mp hm
      have hrr : row' = row := congrArg Prod.fst heq
      have hxv : aliasLookup city_df aliasT
          (visa_df.filter (fun w => (directLookup city_df visa_df w.city_post).isNone))
          row'.city_post = x := congrArg Prod.snd heq
      rw [hrr, h2] at hxv
      rw [← hxv] at hx2
      cases hx2
  · simp only [map_city_country]
    apply mem_uniques_of_mem
    refine List.mem_map.mpr ⟨(row, none), ?_, rfl⟩
    apply List.mem_filter.mpr
    refine ⟨List.mem_append_right _ ?_, rfl⟩
    refine List.mem_map.mpr ⟨row, ?_, ?_⟩
    · exact List.mem_filter.mpr ⟨hrow, by rw [h1]; rfl⟩
    · rw [h2]

/-- A wait-time row whose city has no gazetteer match and no alias entry. -/
def visaAtlantis : List VisaRow := [⟨"Atlantis".data, [some ("7".data)]⟩]

/-- Witness for C6: with an empty gazetteer and empty alias table the
"Atlantis" row is excluded from the result and reported. -/
theorem map_city_country_excludes_unmatched_witness :
    ((⟨"Atlantis".data, [some ("7".data)]⟩ : VisaRow) ∈ visaAtlantis ∧
      directLookup [] visaAtlantis ("Atlantis".data) = none ∧
      aliasLookup [] []
        (visaAtlantis.filter
          (fun w => (directLookup [] visaAtlantis w.city_post).isNone))
        ("Atlantis".data) = none) ∧
    ((∀ p ∈ (map_city_country [] [] visaAtlantis).1, p.2.isSome = true) ∧
      (∀ x, ((⟨"Atlantis".data, [some ("7".data)]⟩ : VisaRow), x) ∉
        (map_city_country [] [] visaAtlantis).1) ∧
      ("Atlantis".data : PyStr) ∈ (map_city_country [] [] visaAtlantis).2) :=
  ⟨⟨by decide, rfl, rfl⟩,
   map_city_country_excludes_unmatched [] [] visaAtlantis
     ⟨"Atlantis".data, [some ("7".data)]⟩ (by decide) rfl rfl⟩

/-! ### `ImmigrationData.get_dol_data("PWD")` (src/data_perm.py lines 28-39)

The two monthly receipt-queue tables are renamed to the common
`{Receipt Month, Remaining Requests}` shape and outer-joined on the raw
month string; the joined month column is then parsed with
`pd.to_datetime(..., format="%B %Y")` and re-formatted as `"%Y-%m"`, and the
frame is sorted by that column descending.  A `"%Y-%m"` value is modeled as
the pair `(year, month)`: for four-digit years the lexicographic order of
the formatted strings coincides with the numeric order of the pairs. -/

/-- Case-insensitive literal prefix match, returning the remainder. -/
def stripLit (lit s : PyStr) : Option PyStr :=
  if (s.take lit.length).map Char.toLower = lit then some (s.drop lit.length)
  else none

/-- The `%B` full month names. -/
def monthNamesFull : List (PyStr × Nat) :=
  [("january".data, 1), ("february".data, 2), ("march".data, 3),
   ("april".data, 4), ("may".data, 5), ("june".data, 6), ("july".data, 7),
   ("august".data, 8), ("september".data, 9), ("october".data, 10),
   ("november".data, 11), ("december".data, 12)]

def matchMonthFull : List (PyStr × Nat) → PyStr → Option (Nat × PyStr)
  | [], _ => none
  | (nm, k) :: rest, s =>
    match stripLit nm s with
    | some r => some (k, r)
    | none => matchMonthFull rest s

/-- `pd.to_datetime(s, format="%B %Y")` (no `errors="coerce"` here, so a
non-matching cell raises): month name, one space, exactly four digits. -/
def parseMonthYear (s : PyStr) : Option (Nat × Nat) :=
  match matchMonthFull monthNamesFull s with
  | none => none
  | some (m, r) =>
    match r with
    | ' ' :: y =>
      if y.length = 4 ∧ y.all Char.isDigit then some (natOfDigits y, m)
      else none
    | _ => none

/-- `pd.merge(pwd_h1b, pwd_perm, on="Receipt Month", how="outer")` on rows
`(month, remaining)`: matched pairs, then left-only rows with a null right
side, then right-only rows with a null left side (the later sort fixes the
final order, so only the content matters here). -/
def outerJoinMonths (l r : List (PyStr × Nat)) :
    List (PyStr × Option Nat × Option Nat) :=
  (l.flatMap (fun kv =>
    let ms := r.filter (fun kw => kw.1 == kv.1)
    if ms.isEmpty then [(kv.1, some kv.2, none)]
    else ms.map (fun kw => (kv.1, some kv.2, some kw.2)))) ++
  ((r.filter (fun kw => l.all (fun kv => !(kv.1 == kw.1)))).map
    (fun kw => (kw.1, none, some kw.2)))

/-- One row of the joined frame after month parsing: `((year, month),
remaining_h1b, remaining_perm)`. -/
abbrev PwdRow := (Nat × Nat) × Option Nat × Option Nat

/-- Strictly later month (the sort key comparison for
`sort_values("Receipt Month", ascending=False)`). -/
def ymGt (a b : Nat × Nat) : Bool :=
  decide (b.1 < a.1) || (a.1 == b.1 && decide (b.2 < a.2))

/-- Stable descending insertion (equal keys keep first-seen order, matching
the pandas sort as in `selectBest1`). -/
def insertRowDesc (x : PwdRow) : List PwdRow → List PwdRow
  | [] => [x]
  | y :: rest => if ymGt y.1 x.1 then y :: insertRowDesc x rest else x :: y :: rest

def sortMonthsDesc : List PwdRow → List PwdRow
  | [] => []
  | x :: rest => insertRowDesc x (sortMonthsDesc rest)

/-- Month parsing of one joined row; a bad month cell raises `ValueError`. -/
def parsePwdRow (row : PyStr × Option Nat × Option Nat) : Except PyStr PwdRow :=
  match parseMonthYear row.1 with
  | some ym => .ok (ym, row.2)
  | none => .error ("ValueError".data)

/-- `ImmigrationData.get_dol_data("PWD")` (src/data_perm.py lines 32-39,
abstracting the positional table extraction to the two renamed series). -/
def get_dol_data_pwd (pwd_h1b pwd_perm : List (PyStr × Nat)) :
    Except PyStr (List PwdRow) :=
  match mapME parsePwdRow (outerJoinMonths pwd_h1b pwd_perm) with
  | .error e => .error e
  | .ok parsed => .ok (sortMonthsDesc parsed)

/-! #### Order and sorting lemmas for the receipt-month sort -/

theorem ymGt_asymm {a b : Nat × Nat} (h : ymGt a b = true) : ymGt b a = false := by
  simp only [ymGt, Bool.or_eq_true, Bool.and_eq_true, decide_eq_true_eq,
    beq_iff_eq, Bool.or_eq_false_iff, Bool.and_eq_false_iff,
    decide_eq_false_iff_not, beq_eq_false_iff_ne] at *
  omega

theorem ymGt_le_trans {x y z : Nat × Nat} (h1 : ymGt y x = false)
    (h2 : ymGt z y = false) : ymGt z x = false := by
  simp only [ymGt, Bool.or_eq_false_iff, Bool.and_eq_false_iff,
    decide_eq_false_iff_not, beq_eq_false_iff_ne] at *
  omega

theorem mem_insertRowDesc {z x : PwdRow} {l : List PwdRow} :
    z ∈ insertRowDesc x l ↔ z = x ∨ z ∈ l := by
  induction l with
  | nil => simp [insertRowDesc]
  | cons y rest ih =>
    unfold insertRowDesc
    by_cases h : ymGt y.1 x.1 = true
    · rw [if_pos h]
      simp only [List.mem_cons, ih]
      tauto
    · rw [if_neg h]
      simp only [List.mem_cons]

theorem mem_sortMonthsDesc {x : PwdRow} {l : List PwdRow} (hx : x ∈ l) :
    x ∈ sortMonthsDesc l := by
  induction l with
  | nil => cases hx
  | cons y rest ih =>
    unfold sortMonthsDesc
    rcases List.mem_cons.mp hx with rfl | hx'
    · exact mem_insertRowDesc.mpr (Or.inl rfl)
    · exact mem_insertRowDesc.mpr (Or.inr (ih hx'))

theorem pairwise_insertRowDesc (x : PwdRow) (l : List PwdRow)
    (h : l.Pairwise (fun a b => ymGt b.1 a.1 = false)) :
    (insertRowDesc x l).Pairwise (fun a b => ymGt b.1 a.1 = false) := by
  induction l with
  | nil => simp [insertRowDesc]
  | cons y rest ih =>
    rw [List.pairwise_cons] at h
    unfold insertRowDesc
    by_cases hyx : ymGt y.1 x.1 = true
    · rw [if_pos hyx]
      rw [List.pairwise_cons]
      refine ⟨?_, ih h.2⟩
      intro z hz
      rcases mem_insertRowDesc.mp hz with rfl | hz'
      · exact ymGt_asymm hyx
      · exact h.1 z hz'
    · rw [if_neg hyx]
      rw [List.pairwise_cons]
      refine ⟨?_, List.pairwise_cons.mpr h⟩
      intro z hz
      rcases List.mem_cons.mp hz with rfl | hz'
      · exact Bool.eq_false_iff.mpr hyx
      · exact ymGt_le_trans (Bool.eq_false_iff.mpr hyx) (h.1 z hz')

theorem sortMonthsDesc_pairwise (l : List PwdRow) :
    (sortMonthsDesc l).Pairwise (fun a b => ymGt b.1 a.1 = false) := by
  induction l with
  | nil => exact List.Pairwise.nil
  | cons x rest ih => exact pairwise_insertRowDesc x _ ih

/-- C9: `get_dol_data("PWD")` outer-joins the two monthly series — a month
present only in the H-1B series appears with a null PERM side — sorts the
result by receipt month descending, and on the series `[("January 2024",
100)]`, `[("February 2024", 50)]` yields exactly two rows, each with one
null side, later month first. -/
theorem get_dol_data_pwd_outer_join (l r : List (PyStr × Nat))
    (out : List PwdRow) (k : PyStr) (v : Nat) (ym : Nat × Nat)
    (hk : (k, v) ∈ l)
    (hnot : r.all (fun kw => !(kw.1 == k)) = true)
    (hp : parseMonthYear k = some ym)
    (hok : get_dol_data_pwd l r = .ok out) :
    ((ym, some v, none) : PwdRow) ∈ out ∧
    out.Pairwise (fun a b => ymGt b.1 a.1 = false) ∧
    get_dol_data_pwd [("January 2024".data, 100)] [("February 2024".data, 50)] =
      .ok [((2024, 2), none, some 50), ((2024, 1), some 100, none)] := by
  have hout : out = sortMonthsDesc ((mapME parsePwdRow
      (outerJoinMonths l r)).toOption.getD []) ∧
      ∃ parsed, mapME parsePwdRow (outerJoinMonths l r) = .ok parsed := by
    unfold get_dol_data_pwd at hok
    rcases hm : mapME parsePwdRow (outerJoinMonths l r) with e | parsed <;>
      rw [hm] at hok
    · cases hok
    · cases hok
      exact ⟨rfl, parsed, rfl⟩
  obtain ⟨hout1, parsed, hm⟩ := hout
  rw [hm] at hout1
  simp only [Except.toOption, Option.getD_some] at hout1
  refine ⟨?_, ?_, rfl⟩
  · have hjmem : (k, some v, none) ∈ outerJoinMonths l r := by
      apply List.mem_append_left
      apply List.mem_flatMap.mpr
      refine ⟨(k, v), hk, ?_⟩
      have hfil : r.filter (fun kw => kw.1 == k) = [] := by
        rw [List.filter_eq_nil_iff]
        intro a ha
        have := List.all_eq_true.mp hnot a ha
        simp only [Bool.not_eq_eq_eq_not, Bool.not_true] at this
        simp [this]
      simp [hfil]
    have hrow : parsePwdRow (k, some v, none) = .ok ((ym, some v, none) : PwdRow) := by
      unfold parsePwdRow
      rw [hp]
    have : ((ym, some v, none) : PwdRow) ∈ parsed := mapME_mem hm hjmem hrow
    rw [hout1]
    exact mem_sortMonthsDesc this
  · rw [hout1]
    exact sortMonthsDesc_pairwise parsed

/-- Witness for C9 at the concrete two-series scenario. -/
theorem get_dol_data_pwd_outer_join_witness :
    ((("January 2024".data, 100) ∈ [(("January 2024".data : PyStr), 100)] ∧
      List.all [(("February 2024".data : PyStr), 50)]
        (fun kw => !(kw.1 == ("January 2024".data : PyStr))) = true ∧
      parseMonthYear ("January 2024".data) = some (2024, 1)) ∧
      get_dol_data_pwd [("January 2024".data, 100)] [("February 2024".data, 50)] =
        .ok [((2024, 2), none, some 50), ((2024, 1), some 100, none)]) ∧
    ((((2024, 1), some 100, none) : PwdRow) ∈
        [((2024, 2), none, some 50), ((2024, 1), some 100, none)] ∧
      List.Pairwise (fun a b : PwdRow => ymGt b.1 a.1 = false)
        [((2024, 2), none, some 50), ((2024, 1), some 100, none)]) :=
  ⟨⟨⟨by decide, by decide, rfl⟩, rfl⟩,
   (get_dol_data_pwd_outer_join [("January 2024".data, 100)]
      [("February 2024".data, 50)]
      [((2024, 2), none, some 50), ((2024, 1), some 100, none)]
      ("January 2024".data) 100 (2024, 1)
      (by decide) (by decide) rfl rfl).1,
   (get_dol_data_pwd_outer_join [("January 2024".data, 100)]
      [("February 2024".data, 50)]
      [((2024, 2), none, some 50), ((2024, 1), some 100, none)]
      ("January 2024".data) 100 (2024, 1)
      (by decide) (by decide) rfl rfl).2.1⟩

end VisaWait
